import Mathlib

/-!
Shallow embedding of the fuzzy-hashing forensic tool (src/main.py).

The program scans a disk image's file tree for images visually similar to a
folder of reference images.  External collaborators (the dfvfs virtual
filesystem, the PIL image codec, the local filesystem) are modelled as data:
a `FileEntry` tree carries, for each leaf, the outcome that the provider and
the codec would produce for it (`DecodeResult`), and the export `image.save`
call is modelled by an oracle `saveOk : String → Bool` telling whether saving
to a given output path succeeds.  Python exceptions are modelled as explicit
early exits; the floating point mean is modelled exactly over ℚ.
-/

namespace ForensicTool

/-- A dissimilarity score (np.mean of the absolute per-pixel difference). -/
abbrev Score := ℚ

/-- A reference image's match list: (candidate location, score) pairs. -/
abbrev MatchList := List (String × Score)

/-- The `result` dict: insertion-ordered mapping reference path → match list. -/
abbrev ResultMap := List (String × MatchList)

/-- A decoded PIL image: dimensions, mode (channel representation) and the
flattened grid of 8-bit samples. -/
structure PILImage where
  width : Nat
  height : Nat
  mode : String
  pixels : List Nat
deriving DecidableEq

/-- Model of `PIL.ImageChops.difference`: the pointwise absolute difference of
two images; raises (`none`) when the sizes or modes differ. -/
def imageChopsDifference (im1 im2 : PILImage) : Option (List Nat) :=
  if im1.width = im2.width ∧ im1.height = im2.height ∧ im1.mode = im2.mode then
    some (List.zipWith Nat.dist im1.pixels im2.pixels)
  else
    none

/-- Model of `np.mean` over the sample grid, computed exactly in ℚ. -/
def npMean (l : List Nat) : ℚ :=
  (List.map (fun n : Nat => (n : ℚ)) l).sum / (l.length : ℚ)

/-- main.py lines 14-30, `img_similarity_check`: pixel-by-pixel comparison.
`none` models the `ValueError` raised by `ImageChops.difference` on a
size/mode mismatch; otherwise returns `(is_similar, mean_diff)` with
`is_similar = (mean_diff < similarity_threshold)` (strict). -/
def img_similarity_check (img1 img2 : PILImage) (similarity_threshold : Int) :
    Option (Bool × Score) :=
  match imageChopsDifference img2 img1 with
  | none => none
  | some diff_array =>
    let mean_diff := npMean diff_array
    some (decide (mean_diff < (similarity_threshold : ℚ)), mean_diff)

/-- Python `str.lower()` (restricted to the ASCII case mapping). -/
def pyLower (s : String) : String :=
  String.mk (s.data.map Char.toLower)

/-- Python `str.endswith(suffix)`. -/
def pyEndsWith (s suffix : String) : Bool :=
  suffix.data.isSuffixOf s.data

/-- Index of the last occurrence of a character in a list, if any. -/
def lastIndexOf (l : List Char) (c : Char) : Option Nat :=
  ((l.enum.filter fun p => p.2 == c).map fun p => p.1).getLast?

/-- Extension component of `os.path.splitext(p)` (posix rules): everything
from the last dot of the final path component, unless that component is all
leading dots up to it. -/
def splitextExt (p : String) : String :=
  let l := p.data
  match lastIndexOf l '.' with
  | none => ""
  | some d =>
    let s :=
      match lastIndexOf l '/' with
      | none => 0
      | some si => si + 1
    if s ≤ d then
      if ((l.drop s).take (d - s)).any fun c => c != '.' then
        String.mk (l.drop d)
      else ""
    else ""

/-- Python `os.path.join` for the simple shapes this program uses. -/
def pjoin (a b : String) : String := a ++ "/" ++ b

/-- main.py line 100: the accepted image extensions (also the suffix tuple of
line 64). -/
def valid_image_extensions : List String :=
  [".jpg", ".jpeg", ".png", ".bmp", ".gif", ".tiff"]

/-- Outcome of `GetFileObject` / `read` / `Image.open` on one leaf entry:
`noObject` models a falsy file object (line 106), `decodeError` models an
exception while reading or decoding the bytes, `ok img` a decoded image. -/
inductive DecodeResult where
  | noObject
  | decodeError
  | ok (img : PILImage)
deriving DecidableEq

/-- A node of the virtual filesystem tree: a leaf carries its
`path_spec.location`, its `name`, and what reading/decoding it yields; a
directory carries its ordered `sub_file_entries`. -/
inductive FileEntry where
  | file (location : String) (name : String) (content : DecodeResult)
  | dir (location : String) (name : String) (children : List FileEntry)

/-- Model of `result[reference_name].append(res_tuple)` on the ordered dict. -/
def appendRec (m : ResultMap) (k : String) (v : String × Score) : ResultMap :=
  m.map fun kv => if kv.1 = k then (kv.1, kv.2 ++ [v]) else kv

/-- Append each record of a list in turn, to its own reference's list. -/
def appendAll (m : ResultMap) (recs : List (String × (String × Score))) : ResultMap :=
  recs.foldl (fun acc kv => appendRec acc kv.1 kv.2) m

/-- main.py lines 113-124, the loop over `reference_image_list.items()`.
Returns the updated result and whether an exception escaped the loop (a
size/mode mismatch inside `img_similarity_check`, or a failing
`image.save`); the exception is raised after any append of that iteration,
and stops the loop. -/
def compareAll (image : PILImage) (location name : String)
    (similarity_threshold : Int) (output_folder : String) (saveOk : String → Bool) :
    List (String × PILImage) → ResultMap → ResultMap × Bool
  | [], result => (result, false)
  | (reference_name, reference_image) :: rest, result =>
    match img_similarity_check image reference_image similarity_threshold with
    | none => (result, true)
    | some (is_similar, mean_diff) =>
      if is_similar then
        let result' := appendRec result reference_name (location, mean_diff)
        if output_folder ≠ "" then
          if saveOk (pjoin output_folder name) then
            compareAll image location name similarity_threshold output_folder saveOk
              rest result'
          else
            (result', true)
        else
          compareAll image location name similarity_threshold output_folder saveOk
            rest result'
      else
        compareAll image location name similarity_threshold output_folder saveOk
          rest result

/-- main.py lines 87-130, `is_image_similar`: extension filter, decode, then
the comparison loop; the surrounding `try/except` swallows any exception, so
the result as mutated so far is always returned. -/
def is_image_similar (location name : String) (content : DecodeResult)
    (reference_image_list : List (String × PILImage)) (similarity_threshold : Int)
    (output_folder : String) (saveOk : String → Bool) (result : ResultMap) : ResultMap :=
  if pyLower (splitextExt location) ∈ valid_image_extensions then
    match content with
    | .noObject => result
    | .decodeError => result
    | .ok image =>
      (compareAll image location name similarity_threshold output_folder saveOk
        reference_image_list result).1
  else
    result

mutual

/-- main.py lines 133-147, `traverse_file_entries`: recursive depth-first
walk, scoring each non-directory entry. -/
def traverse_file_entries (reference_image_list : List (String × PILImage))
    (similarity_threshold : Int) (output_folder : String) (saveOk : String → Bool) :
    FileEntry → ResultMap → ResultMap
  | .file location name content, result =>
    is_image_similar location name content reference_image_list similarity_threshold
      output_folder saveOk result
  | .dir _ _ children, result =>
    traverseList reference_image_list similarity_threshold output_folder saveOk
      children result

/-- The `for sub_file_entry in file_entry.sub_file_entries` loop. -/
def traverseList (reference_image_list : List (String × PILImage))
    (similarity_threshold : Int) (output_folder : String) (saveOk : String → Bool) :
    List FileEntry → ResultMap → ResultMap
  | [], result => result
  | e :: es, result =>
    traverseList reference_image_list similarity_threshold output_folder saveOk es
      (traverse_file_entries reference_image_list similarity_threshold output_folder
        saveOk e result)

end

/-- One entry of the reference folder listing: its filename and what
`PIL.Image.open` yields on it (`none` models a raised exception). -/
structure RefFile where
  filename : String
  decoded : Option PILImage

/-- main.py line 64: `filename.lower().endswith((...))`. -/
def isRefImageFilename (filename : String) : Bool :=
  valid_image_extensions.any fun e => pyEndsWith (pyLower filename) e

/-- main.py lines 60-74: load the reference images in listing order, seeding
`result[file_path] = []` for each; an `Image.open` failure aborts the loop
(third component `false`), keeping what was loaded before it. -/
def loadReferences (reference_image_folder_path : String) :
    List RefFile → (List (String × PILImage)) × ResultMap × Bool
  | [] => ([], [], true)
  | f :: rest =>
    if isRefImageFilename f.filename then
      match f.decoded with
      | none => ([], [], false)
      | some image =>
        let file_path := pjoin reference_image_folder_path f.filename
        let r := loadReferences reference_image_folder_path rest
        ((file_path, image) :: r.1, (file_path, []) :: r.2.1, r.2.2)
    else
      loadReferences reference_image_folder_path rest

/-- Observable outcome of `find_similar_images`: the final result mapping and
whether the traversal of the disk image was performed (line 84 reached, i.e.
the function did not `return False` at line 74). -/
structure RunOutcome where
  result : ResultMap
  traversed : Bool
deriving DecidableEq

/-- main.py lines 33-84, `find_similar_images`, given that the filesystem was
opened successfully (the root entry is supplied) and given the reference
folder's listing. -/
def find_similar_images (root_file_entry : FileEntry)
    (reference_image_folder_path : String) (reference_folder_listing : List RefFile)
    (similarity_threshold : Int) (output_folder : String) (saveOk : String → Bool) :
    RunOutcome :=
  let r := loadReferences reference_image_folder_path reference_folder_listing
  if r.2.2 then
    { result := traverse_file_entries r.1 similarity_threshold output_folder saveOk
        root_file_entry r.2.1,
      traversed := true }
  else
    { result := r.2.1, traversed := false }

/-- main.py line 207: the message printed when `len(result) == 0`. -/
def no_matches_notice : String :=
  "No similar images identified. Try to adjust threshold or add more reference images."

/-- Python format padding `{s:<80}`: left-align to width 80 with spaces. -/
def padLeftAligned (s : String) (w : Nat) : String :=
  s ++ String.mk (List.replicate (w - s.length) ' ')

/-- main.py line 214: one match line of the final report. -/
def reportLine (stat : String × Score) : String :=
  "\t" ++ padLeftAligned stat.1 80 ++ " \t\t difference: " ++ toString stat.2

/-- main.py line 212: the per-reference header of the final report. -/
def referenceHeader (reference_image_name : String) : String :=
  "For reference Image " ++ reference_image_name ++ ": "

/-- main.py lines 204-214: the lines printed after the scan. -/
def reportLines (result : ResultMap) : List String :=
  (if result.length ≠ 0 then ["Final Report: "] else [no_matches_notice]) ++
    (result.map fun kv =>
      if kv.2.length ≠ 0 then referenceHeader kv.1 :: kv.2.map reportLine
      else []).flatten

mutual

/-- The leaf (non-directory) entries of a tree in depth-first discovery
order, children in the order the provider reports them. -/
def leaves : FileEntry → List FileEntry
  | .file location name content => [.file location name content]
  | .dir _ _ children => leavesList children

/-- Depth-first leaves of a forest. -/
def leavesList : List FileEntry → List FileEntry
  | [] => []
  | e :: es => leaves e ++ leavesList es

end

/-- Processing of a single visited entry (the body of the traversal at a
non-directory node). -/
def scanLeaf (reference_image_list : List (String × PILImage))
    (similarity_threshold : Int) (output_folder : String) (saveOk : String → Bool)
    (result : ResultMap) : FileEntry → ResultMap
  | .file location name content =>
    is_image_similar location name content reference_image_list similarity_threshold
      output_folder saveOk result
  | .dir _ _ _ => result

/-- The records `(reference_name, (location, mean_diff))` that the comparison
loop appends, in order, for one candidate. -/
def compareRecords (image : PILImage) (location name : String)
    (similarity_threshold : Int) (output_folder : String) (saveOk : String → Bool) :
    List (String × PILImage) → List (String × (String × Score))
  | [] => []
  | (reference_name, reference_image) :: rest =>
    match img_similarity_check image reference_image similarity_threshold with
    | none => []
    | some (is_similar, mean_diff) =>
      if is_similar then
        (reference_name, (location, mean_diff)) ::
          (if output_folder ≠ "" then
            if saveOk (pjoin output_folder name) then
              compareRecords image location name similarity_threshold output_folder
                saveOk rest
            else []
          else
            compareRecords image location name similarity_threshold output_folder
              saveOk rest)
      else
        compareRecords image location name similarity_threshold output_folder
          saveOk rest

/-- Whether the comparison loop for one candidate ends in an exception. -/
def compareExc (image : PILImage) (location name : String)
    (similarity_threshold : Int) (output_folder : String) (saveOk : String → Bool) :
    List (String × PILImage) → Bool
  | [] => false
  | (_, reference_image) :: rest =>
    match img_similarity_check image reference_image similarity_threshold with
    | none => true
    | some (is_similar, _) =>
      if is_similar then
        if output_folder ≠ "" then
          if saveOk (pjoin output_folder name) then
            compareExc image location name similarity_threshold output_folder
              saveOk rest
          else true
        else
          compareExc image location name similarity_threshold output_folder
            saveOk rest
      else
        compareExc image location name similarity_threshold output_folder
          saveOk rest

/-- The `(reference_name, mean_diff)` pairs the comparison loop actually
computes for one candidate (stopping at the first exception). -/
def scoredScores (image : PILImage) (location name : String)
    (similarity_threshold : Int) (output_folder : String) (saveOk : String → Bool) :
    List (String × PILImage) → List (String × Score)
  | [] => []
  | (reference_name, reference_image) :: rest =>
    match img_similarity_check image reference_image similarity_threshold with
    | none => []
    | some (is_similar, mean_diff) =>
      (reference_name, mean_diff) ::
        (if is_similar then
          if output_folder ≠ "" then
            if saveOk (pjoin output_folder name) then
              scoredScores image location name similarity_threshold output_folder
                saveOk rest
            else []
          else
            scoredScores image location name similarity_threshold output_folder
              saveOk rest
        else
          scoredScores image location name similarity_threshold output_folder
            saveOk rest)

/-- Records of a record list belonging to reference `k`, in order. -/
def recsFor (k : String) (recs : List (String × (String × Score))) : MatchList :=
  recs.filterMap fun kv => if kv.1 = k then some kv.2 else none

/-- The records one visited entry contributes (empty for filtered-out or
undecodable entries and for directories). -/
def leafRecords (reference_image_list : List (String × PILImage))
    (similarity_threshold : Int) (output_folder : String) (saveOk : String → Bool) :
    FileEntry → List (String × (String × Score))
  | .file location name content =>
    if pyLower (splitextExt location) ∈ valid_image_extensions then
      match content with
      | .ok image =>
        compareRecords image location name similarity_threshold output_folder saveOk
          reference_image_list
      | _ => []
    else []
  | .dir _ _ _ => []

/-! ### Helper lemmas -/

/-- Unfolding of `List.lookup` on a cons cell, in propositional form. -/
lemma lookup_cons_eq_if {β : Type} (k a : String) (b : β) (es : List (String × β)) :
    List.lookup k ((a, b) :: es) = if k = a then some b else List.lookup k es := by
  by_cases h : k = a
  · simp [List.lookup, h]
  · have hb : (k == a) = false := beq_eq_false_iff_ne.mpr h
    simp [List.lookup, hb, h]

lemma appendAll_nil (m : ResultMap) : appendAll m [] = m := rfl

lemma appendAll_cons (m : ResultMap) (kv : String × (String × Score))
    (recs : List (String × (String × Score))) :
    appendAll m (kv :: recs) = appendAll (appendRec m kv.1 kv.2) recs := rfl

/-- A computed similarity verdict is the strict comparison of the computed
mean with the threshold. -/
lemma img_similarity_check_verdict {img1 img2 : PILImage} {similarity_threshold : Int}
    {s : Bool} {m : Score}
    (h : img_similarity_check img1 img2 similarity_threshold = some (s, m)) :
    s = true ↔ m < (similarity_threshold : ℚ) := by
  unfold img_similarity_check at h
  cases hd : imageChopsDifference img2 img1 with
  | none => rw [hd] at h; exact absurd h (by simp)
  | some d =>
    rw [hd] at h
    simp only [Option.some.injEq, Prod.mk.injEq] at h
    obtain ⟨h1, h2⟩ := h
    subst h2
    subst h1
    exact decide_eq_true_iff

/-- The comparison loop equals: append the records it produces, and report
whether it raised. -/
lemma compareAll_eq (image : PILImage) (location name : String)
    (similarity_threshold : Int) (output_folder : String) (saveOk : String → Bool)
    (refs : List (String × PILImage)) :
    ∀ result : ResultMap,
      compareAll image location name similarity_threshold output_folder saveOk
          refs result =
        (appendAll result
          (compareRecords image location name similarity_threshold output_folder
            saveOk refs),
         compareExc image location name similarity_threshold output_folder
           saveOk refs) := by
  induction refs with
  | nil => intro result; rfl
  | cons head rest ih =>
    obtain ⟨reference_name, reference_image⟩ := head
    intro result
    simp only [compareAll, compareRecords, compareExc]
    cases hc : img_similarity_check image reference_image similarity_threshold with
    | none => simp [appendAll]
    | some p =>
      obtain ⟨s, m⟩ := p
      cases s with
      | false => simpa using ih result
      | true =>
        simp only [if_true]
        by_cases ho : output_folder = ""
        · have hcond : ¬ (output_folder ≠ "") := by simp [ho]
          simp only [if_neg hcond]
          rw [appendAll_cons]
          exact ih _
        · have ho' : output_folder ≠ "" := ho
          simp only [if_pos ho']
          by_cases hs : saveOk (pjoin output_folder name) = true
          · simp only [if_pos hs]
            rw [appendAll_cons]
            exact ih _
          · simp only [if_neg hs]
            rw [appendAll_cons, appendAll_nil]

/-- Appending a record rewrites each key's list pointwise. -/
lemma lookup_appendRec (m : ResultMap) (k k' : String) (v : String × Score) :
    List.lookup k' (appendRec m k v) =
      (List.lookup k' m).map fun l => if k = k' then l ++ [v] else l := by
  induction m with
  | nil => rfl
  | cons a rest ih =>
    obtain ⟨a1, a2⟩ := a
    by_cases h1 : a1 = k
    · subst h1
      simp only [appendRec, List.map_cons, if_pos rfl] at *
      by_cases h2 : k' = a1
      · subst h2
        simp [lookup_cons_eq_if]
      · simp [lookup_cons_eq_if, h2, ih, appendRec]
    · simp only [appendRec, List.map_cons, if_neg h1] at *
      by_cases h2 : k' = a1
      · subst h2
        have hne : k ≠ k' := fun h => h1 h.symm
        simp [lookup_cons_eq_if, hne]
      · simp [lookup_cons_eq_if, h2, ih, appendRec]

/-- Appending a record list extends each key's list by its own records. -/
lemma lookup_appendAll (recs : List (String × (String × Score))) :
    ∀ (m : ResultMap) (k : String),
      List.lookup k (appendAll m recs) =
        (List.lookup k m).map fun l => l ++ recsFor k recs := by
  induction recs with
  | nil =>
    intro m k
    rw [appendAll_nil]
    cases List.lookup k m <;> simp [recsFor]
  | cons kv rest ih =>
    obtain ⟨k0, v0⟩ := kv
    intro m k
    rw [appendAll_cons, ih, lookup_appendRec]
    cases List.lookup k m with
    | none => rfl
    | some l =>
      by_cases h : k0 = k
      · subst h
        simp [recsFor]
      · simp [recsFor, h]

/-- Appending a record never changes the key sequence. -/
lemma map_fst_appendRec (m : ResultMap) (k : String) (v : String × Score) :
    (appendRec m k v).map Prod.fst = m.map Prod.fst := by
  unfold appendRec
  rw [List.map_map]
  refine List.map_congr_left fun kv _ => ?_
  by_cases h : kv.1 = k <;> simp [h]

lemma map_fst_appendAll (recs : List (String × (String × Score))) :
    ∀ m : ResultMap, (appendAll m recs).map Prod.fst = m.map Prod.fst := by
  induction recs with
  | nil => intro m; rfl
  | cons kv rest ih =>
    intro m
    rw [appendAll_cons, ih, map_fst_appendRec]

lemma is_image_similar_ok {location : String}
    (hext : pyLower (splitextExt location) ∈ valid_image_extensions)
    (name : String) (image : PILImage) (refs : List (String × PILImage))
    (similarity_threshold : Int) (output_folder : String) (saveOk : String → Bool)
    (result : ResultMap) :
    is_image_similar location name (.ok image) refs similarity_threshold output_folder
        saveOk result =
      (compareAll image location name similarity_threshold output_folder saveOk
        refs result).1 := by
  unfold is_image_similar
  rw [if_pos hext]

lemma is_image_similar_not_decoded {location : String} {content : DecodeResult}
    (hc : ∀ image : PILImage, content ≠ .ok image)
    (name : String) (refs : List (String × PILImage)) (similarity_threshold : Int)
    (output_folder : String) (saveOk : String → Bool) (result : ResultMap) :
    is_image_similar location name content refs similarity_threshold output_folder
        saveOk result = result := by
  unfold is_image_similar
  cases content with
  | noObject => split <;> rfl
  | decodeError => split <;> rfl
  | ok image => exact absurd rfl (hc image)

lemma is_image_similar_not_ext {location : String}
    (hext : pyLower (splitextExt location) ∉ valid_image_extensions)
    (name : String) (content : DecodeResult) (refs : List (String × PILImage))
    (similarity_threshold : Int) (output_folder : String) (saveOk : String → Bool)
    (result : ResultMap) :
    is_image_similar location name content refs similarity_threshold output_folder
        saveOk result = result := by
  unfold is_image_similar
  rw [if_neg hext]

lemma leafRecords_ok {location : String}
    (hext : pyLower (splitextExt location) ∈ valid_image_extensions)
    (name : String) (image : PILImage) (refs : List (String × PILImage))
    (similarity_threshold : Int) (output_folder : String) (saveOk : String → Bool) :
    leafRecords refs similarity_threshold output_folder saveOk
        (.file location name (.ok image)) =
      compareRecords image location name similarity_threshold output_folder saveOk
        refs := by
  simp only [leafRecords]
  rw [if_pos hext]

lemma leafRecords_not_decoded {location : String} {content : DecodeResult}
    (hc : ∀ image : PILImage, content ≠ .ok image)
    (name : String) (refs : List (String × PILImage)) (similarity_threshold : Int)
    (output_folder : String) (saveOk : String → Bool) :
    leafRecords refs similarity_threshold output_folder saveOk
        (.file location name content) = [] := by
  cases content with
  | noObject => simp only [leafRecords]; split <;> rfl
  | decodeError => simp only [leafRecords]; split <;> rfl
  | ok image => exact absurd rfl (hc image)

lemma leafRecords_not_ext {location : String}
    (hext : pyLower (splitextExt location) ∉ valid_image_extensions)
    (name : String) (content : DecodeResult) (refs : List (String × PILImage))
    (similarity_threshold : Int) (output_folder : String) (saveOk : String → Bool) :
    leafRecords refs similarity_threshold output_folder saveOk
        (.file location name content) = [] := by
  simp only [leafRecords]
  rw [if_neg hext]

lemma recsFor_nil (k : String) : recsFor k [] = [] := rfl

lemma option_map_append_nil (o : Option MatchList) :
    (o.map fun l => l ++ ([] : MatchList)) = o := by
  cases o <;> simp

/-- Scoring one entry never changes the key sequence of the result. -/
lemma map_fst_is_image_similar (location name : String) (content : DecodeResult)
    (refs : List (String × PILImage)) (similarity_threshold : Int)
    (output_folder : String) (saveOk : String → Bool) (result : ResultMap) :
    (is_image_similar location name content refs similarity_threshold output_folder
        saveOk result).map Prod.fst = result.map Prod.fst := by
  by_cases hext : pyLower (splitextExt location) ∈ valid_image_extensions
  · cases content with
    | noObject => rw [is_image_similar_not_decoded (by intro i h; cases h)]
    | decodeError => rw [is_image_similar_not_decoded (by intro i h; cases h)]
    | ok image =>
      rw [is_image_similar_ok hext, compareAll_eq]
      exact map_fst_appendAll _ _
  · rw [is_image_similar_not_ext hext]

lemma map_fst_scanLeaf (refs : List (String × PILImage)) (similarity_threshold : Int)
    (output_folder : String) (saveOk : String → Bool) (result : ResultMap)
    (e : FileEntry) :
    (scanLeaf refs similarity_threshold output_folder saveOk result e).map Prod.fst =
      result.map Prod.fst := by
  cases e with
  | file location name content =>
    exact map_fst_is_image_similar location name content refs similarity_threshold
      output_folder saveOk result
  | dir _ _ _ => rfl

mutual

/-- The recursive traversal is the left fold of per-entry scoring over the
depth-first list of leaves. -/
lemma traverse_eq_foldl (refs : List (String × PILImage)) (similarity_threshold : Int)
    (output_folder : String) (saveOk : String → Bool) :
    ∀ (e : FileEntry) (result : ResultMap),
      traverse_file_entries refs similarity_threshold output_folder saveOk e result =
        (leaves e).foldl (scanLeaf refs similarity_threshold output_folder saveOk) result
  | .file location name content, result => by
    simp [traverse_file_entries, leaves, scanLeaf]
  | .dir l n children, result => by
    simp only [traverse_file_entries, leaves]
    exact traverseList_eq_foldl refs similarity_threshold output_folder saveOk
      children result

lemma traverseList_eq_foldl (refs : List (String × PILImage)) (similarity_threshold : Int)
    (output_folder : String) (saveOk : String → Bool) :
    ∀ (es : List FileEntry) (result : ResultMap),
      traverseList refs similarity_threshold output_folder saveOk es result =
        (leavesList es).foldl (scanLeaf refs similarity_threshold output_folder saveOk)
          result
  | [], result => rfl
  | e :: es, result => by
    simp only [traverseList, leavesList, List.foldl_append]
    rw [traverse_eq_foldl refs similarity_threshold output_folder saveOk e result]
    exact traverseList_eq_foldl refs similarity_threshold output_folder saveOk es _

end

/-- Scoring one entry extends each reference's list by that entry's records. -/
lemma lookup_is_image_similar (location name : String) (content : DecodeResult)
    (refs : List (String × PILImage)) (similarity_threshold : Int)
    (output_folder : String) (saveOk : String → Bool) (result : ResultMap) (k : String) :
    List.lookup k (is_image_similar location name content refs similarity_threshold
        output_folder saveOk result) =
      (List.lookup k result).map fun l =>
        l ++ recsFor k (leafRecords refs similarity_threshold output_folder saveOk
          (.file location name content)) := by
  by_cases hext : pyLower (splitextExt location) ∈ valid_image_extensions
  · cases content with
    | noObject =>
      rw [is_image_similar_not_decoded (by intro i h; cases h),
        leafRecords_not_decoded (by intro i h; cases h), recsFor_nil,
        option_map_append_nil]
    | decodeError =>
      rw [is_image_similar_not_decoded (by intro i h; cases h),
        leafRecords_not_decoded (by intro i h; cases h), recsFor_nil,
        option_map_append_nil]
    | ok image =>
      rw [is_image_similar_ok hext, leafRecords_ok hext, compareAll_eq]
      exact lookup_appendAll _ _ _
  · rw [is_image_similar_not_ext hext, leafRecords_not_ext hext, recsFor_nil,
      option_map_append_nil]

lemma lookup_scanLeaf (refs : List (String × PILImage)) (similarity_threshold : Int)
    (output_folder : String) (saveOk : String → Bool) (result : ResultMap)
    (e : FileEntry) (k : String) :
    List.lookup k (scanLeaf refs similarity_threshold output_folder saveOk result e) =
      (List.lookup k result).map fun l =>
        l ++ recsFor k (leafRecords refs similarity_threshold output_folder saveOk e) := by
  cases e with
  | file location name content =>
    exact lookup_is_image_similar location name content refs similarity_threshold
      output_folder saveOk result k
  | dir l n children =>
    show List.lookup k result = _
    rw [show leafRecords refs similarity_threshold output_folder saveOk
        (.dir l n children) = [] from rfl, recsFor_nil, option_map_append_nil]

lemma lookup_foldl_scanLeaf (refs : List (String × PILImage)) (similarity_threshold : Int)
    (output_folder : String) (saveOk : String → Bool) (ls : List FileEntry) :
    ∀ (result : ResultMap) (k : String),
      List.lookup k (ls.foldl (scanLeaf refs similarity_threshold output_folder saveOk)
          result) =
        (List.lookup k result).map fun l =>
          l ++ (ls.map fun e =>
            recsFor k (leafRecords refs similarity_threshold output_folder saveOk e)).flatten := by
  induction ls with
  | nil =>
    intro result k
    rw [List.foldl_nil, List.map_nil, List.flatten_nil, option_map_append_nil]
  | cons e ls ih =>
    intro result k
    rw [List.foldl_cons, ih, lookup_scanLeaf]
    cases h : List.lookup k result <;> simp [List.append_assoc]

/-- The traversal extends each reference's list by the concatenation, in
discovery order, of the per-leaf record contributions. -/
lemma lookup_traverse (refs : List (String × PILImage)) (similarity_threshold : Int)
    (output_folder : String) (saveOk : String → Bool) (e : FileEntry)
    (result : ResultMap) (k : String) :
    List.lookup k (traverse_file_entries refs similarity_threshold output_folder saveOk
        e result) =
      (List.lookup k result).map fun l =>
        l ++ ((leaves e).map fun le =>
          recsFor k (leafRecords refs similarity_threshold output_folder saveOk le)).flatten := by
  rw [traverse_eq_foldl]
  exact lookup_foldl_scanLeaf refs similarity_threshold output_folder saveOk
    (leaves e) result k

lemma map_fst_foldl_scanLeaf (refs : List (String × PILImage)) (similarity_threshold : Int)
    (output_folder : String) (saveOk : String → Bool) (ls : List FileEntry) :
    ∀ result : ResultMap,
      ((ls.foldl (scanLeaf refs similarity_threshold output_folder saveOk) result).map
        Prod.fst) = result.map Prod.fst := by
  induction ls with
  | nil => intro result; rfl
  | cons e ls ih =>
    intro result
    rw [List.foldl_cons, ih, map_fst_scanLeaf]

/-- The traversal never changes the key sequence of the result. -/
lemma map_fst_traverse (refs : List (String × PILImage)) (similarity_threshold : Int)
    (output_folder : String) (saveOk : String → Bool) (e : FileEntry)
    (result : ResultMap) :
    (traverse_file_entries refs similarity_threshold output_folder saveOk e result).map
        Prod.fst = result.map Prod.fst := by
  rw [traverse_eq_foldl]
  exact map_fst_foldl_scanLeaf refs similarity_threshold output_folder saveOk
    (leaves e) result

/-- Every record the loop produces names a reference from the list, carries
the candidate's location, and a score strictly below the threshold. -/
lemma mem_compareRecords (image : PILImage) (location name : String)
    (similarity_threshold : Int) (output_folder : String) (saveOk : String → Bool)
    (refs : List (String × PILImage)) :
    ∀ p : String × (String × Score),
      p ∈ compareRecords image location name similarity_threshold output_folder
        saveOk refs →
      p.1 ∈ refs.map Prod.fst ∧ p.2.1 = location ∧
        p.2.2 < (similarity_threshold : ℚ) := by
  induction refs with
  | nil => intro p hp; cases hp
  | cons head rest ih =>
    obtain ⟨rn, ri⟩ := head
    intro p hp
    simp only [compareRecords] at hp
    cases hc : img_similarity_check image ri similarity_threshold with
    | none => simp only [hc] at hp; cases hp
    | some q =>
      obtain ⟨s, m⟩ := q
      simp only [hc] at hp
      cases s with
      | false =>
        simp only [Bool.false_eq_true, if_false] at hp
        obtain ⟨h1, h2, h3⟩ := ih p hp
        exact ⟨by simp only [List.map_cons]; exact List.mem_cons_of_mem _ h1, h2, h3⟩
      | true =>
        simp only [if_true] at hp
        rcases List.mem_cons.mp hp with hp1 | hp2
        · subst hp1
          refine ⟨by simp, rfl, ?_⟩
          exact (img_similarity_check_verdict hc).mp rfl
        · have hrest : p ∈ compareRecords image location name similarity_threshold
              output_folder saveOk rest := by
            by_cases ho : output_folder ≠ ""
            · rw [if_pos ho] at hp2
              by_cases hs : saveOk (pjoin output_folder name) = true
              · rwa [if_pos hs] at hp2
              · rw [if_neg hs] at hp2; cases hp2
            · rwa [if_neg ho] at hp2
          obtain ⟨h1, h2, h3⟩ := ih p hrest
          exact ⟨by simp only [List.map_cons]; exact List.mem_cons_of_mem _ h1, h2, h3⟩

/-- Every reference the loop scores comes from the reference list. -/
lemma mem_scoredScores (image : PILImage) (location name : String)
    (similarity_threshold : Int) (output_folder : String) (saveOk : String → Bool)
    (refs : List (String × PILImage)) :
    ∀ q : String × Score,
      q ∈ scoredScores image location name similarity_threshold output_folder
        saveOk refs →
      q.1 ∈ refs.map Prod.fst := by
  induction refs with
  | nil => intro q hq; cases hq
  | cons head rest ih =>
    obtain ⟨rn, ri⟩ := head
    intro q hq
    simp only [scoredScores] at hq
    cases hc : img_similarity_check image ri similarity_threshold with
    | none => simp only [hc] at hq; cases hq
    | some p =>
      obtain ⟨s, m⟩ := p
      simp only [hc] at hq
      rcases List.mem_cons.mp hq with hq1 | hq2
      · subst hq1; simp
      · have hrest : q ∈ scoredScores image location name similarity_threshold
            output_folder saveOk rest := by
          cases s with
          | false => simpa using hq2
          | true =>
            simp only [if_true] at hq2
            by_cases ho : output_folder ≠ ""
            · rw [if_pos ho] at hq2
              by_cases hs : saveOk (pjoin output_folder name) = true
              · rwa [if_pos hs] at hq2
              · rw [if_neg hs] at hq2; cases hq2
            · rwa [if_neg ho] at hq2
        simp only [List.map_cons]
        exact List.mem_cons_of_mem _ (ih q hrest)

/-- If the loop finishes a prefix without raising, records and the exception
flag of the whole list decompose along the append. -/
lemma compareRecords_append_of_not_exc (image : PILImage) (location name : String)
    (similarity_threshold : Int) (output_folder : String) (saveOk : String → Bool)
    (l1 : List (String × PILImage)) :
    ∀ l2 : List (String × PILImage),
      compareExc image location name similarity_threshold output_folder saveOk l1 =
          false →
      compareRecords image location name similarity_threshold output_folder saveOk
          (l1 ++ l2) =
        compareRecords image location name similarity_threshold output_folder saveOk
            l1 ++
          compareRecords image location name similarity_threshold output_folder saveOk
            l2 ∧
      compareExc image location name similarity_threshold output_folder saveOk
          (l1 ++ l2) =
        compareExc image location name similarity_threshold output_folder saveOk l2 := by
  induction l1 with
  | nil => intro l2 _; exact ⟨rfl, rfl⟩
  | cons head rest ih =>
    obtain ⟨rn, ri⟩ := head
    intro l2 hexc
    simp only [compareExc] at hexc
    simp only [List.cons_append, compareRecords, compareExc]
    cases hc : img_similarity_check image ri similarity_threshold with
    | none => simp only [hc] at hexc; cases hexc
    | some q =>
      obtain ⟨s, m⟩ := q
      simp only [hc] at hexc ⊢
      cases s with
      | false =>
        simp only [Bool.false_eq_true, if_false] at hexc ⊢
        exact ih l2 hexc
      | true =>
        simp only [if_true] at hexc ⊢
        by_cases ho : output_folder ≠ ""
        · simp only [if_pos ho] at hexc ⊢
          by_cases hs : saveOk (pjoin output_folder name) = true
          · simp only [if_pos hs] at hexc ⊢
            obtain ⟨h1, h2⟩ := ih l2 hexc
            exact ⟨by simp only [List.append_eq]; rw [h1, List.cons_append], by
              simp only [List.append_eq]; exact h2⟩
          · simp only [if_neg hs] at hexc; cases hexc
        · simp only [if_neg ho] at hexc ⊢
          obtain ⟨h1, h2⟩ := ih l2 hexc
          exact ⟨by simp only [List.append_eq]; rw [h1, List.cons_append], by
            simp only [List.append_eq]; exact h2⟩

/-- If the loop raises within a prefix, nothing after that prefix is ever
reached: records and the flag ignore the appended tail. -/
lemma compareRecords_append_of_exc (image : PILImage) (location name : String)
    (similarity_threshold : Int) (output_folder : String) (saveOk : String → Bool)
    (l1 : List (String × PILImage)) :
    ∀ l2 : List (String × PILImage),
      compareExc image location name similarity_threshold output_folder saveOk l1 =
          true →
      compareRecords image location name similarity_threshold output_folder saveOk
          (l1 ++ l2) =
        compareRecords image location name similarity_threshold output_folder saveOk
          l1 ∧
      compareExc image location name similarity_threshold output_folder saveOk
          (l1 ++ l2) = true := by
  induction l1 with
  | nil => intro l2 hexc; cases hexc
  | cons head rest ih =>
    obtain ⟨rn, ri⟩ := head
    intro l2 hexc
    simp only [compareExc] at hexc
    simp only [List.cons_append, compareRecords, compareExc]
    cases hc : img_similarity_check image ri similarity_threshold with
    | none => simp [hc]
    | some q =>
      obtain ⟨s, m⟩ := q
      simp only [hc] at hexc ⊢
      cases s with
      | false =>
        simp only [Bool.false_eq_true, if_false] at hexc ⊢
        exact ih l2 hexc
      | true =>
        simp only [if_true] at hexc ⊢
        by_cases ho : output_folder ≠ ""
        · simp only [if_pos ho] at hexc ⊢
          by_cases hs : saveOk (pjoin output_folder name) = true
          · simp only [if_pos hs] at hexc ⊢
            obtain ⟨h1, h2⟩ := ih l2 hexc
            exact ⟨by simp only [List.append_eq]; rw [h1], by
              simp only [List.append_eq]; exact h2⟩
          · simp [if_neg hs]
        · simp only [if_neg ho] at hexc ⊢
          obtain ⟨h1, h2⟩ := ih l2 hexc
          exact ⟨by simp only [List.append_eq]; rw [h1], by
            simp only [List.append_eq]; exact h2⟩

/-- For a reference the loop actually scores, the record is appended iff the
computed mean is strictly below the threshold. -/
lemma scored_record_iff (image : PILImage) (location name : String)
    (similarity_threshold : Int) (output_folder : String) (saveOk : String → Bool) :
    ∀ refs : List (String × PILImage), (refs.map Prod.fst).Nodup →
      ∀ (k : String) (m : Score),
        (k, m) ∈ scoredScores image location name similarity_threshold output_folder
          saveOk refs →
        ((k, (location, m)) ∈ compareRecords image location name similarity_threshold
            output_folder saveOk refs ↔ m < (similarity_threshold : ℚ)) := by
  intro refs
  induction refs with
  | nil => intro _ k m hm; cases hm
  | cons head rest ih =>
    obtain ⟨rn, ri⟩ := head
    intro hnd k m hm
    rw [List.map_cons, List.nodup_cons] at hnd
    obtain ⟨hrn, hndr⟩ := hnd
    simp only [scoredScores] at hm
    simp only [compareRecords]
    cases hc : img_similarity_check image ri similarity_threshold with
    | none => simp only [hc] at hm; cases hm
    | some q =>
      obtain ⟨s, m0⟩ := q
      simp only [hc] at hm ⊢
      rcases List.mem_cons.mp hm with hm1 | hm2
      · rw [Prod.mk.injEq] at hm1
        obtain ⟨rfl, rfl⟩ := hm1
        by_cases hlt : m < (similarity_threshold : ℚ)
        · have hst : s = true := (img_similarity_check_verdict hc).mpr hlt
          subst hst
          simp only [if_true]
          exact iff_of_true (List.mem_cons_self _ _) hlt
        · have hsf : s = false := by
            cases s with
            | true => exact absurd ((img_similarity_check_verdict hc).mp rfl) hlt
            | false => rfl
          subst hsf
          simp only [Bool.false_eq_true, if_false]
          refine iff_of_false (fun hmem => ?_) hlt
          exact hrn (mem_compareRecords image location name similarity_threshold
            output_folder saveOk rest _ hmem).1
      · cases s with
        | false =>
          simp only [Bool.false_eq_true, if_false] at hm2 ⊢
          exact ih hndr k m hm2
        | true =>
          simp only [if_true] at hm2 ⊢
          by_cases ho : output_folder ≠ ""
          · by_cases hs2 : saveOk (pjoin output_folder name) = true
            · simp only [if_pos ho, if_pos hs2] at hm2 ⊢
              have hk : k ∈ rest.map Prod.fst :=
                mem_scoredScores image location name similarity_threshold output_folder
                  saveOk rest (k, m) hm2
              have hne : (k, (location, m)) ≠ (rn, (location, m0)) := by
                intro he
                have hkrn : k = rn := congrArg Prod.fst he
                exact hrn (hkrn ▸ hk)
              rw [List.mem_cons, or_iff_right hne]
              exact ih hndr k m hm2
            · simp only [if_pos ho, if_neg hs2] at hm2
              cases hm2
          · simp only [if_neg ho] at hm2 ⊢
            have hk : k ∈ rest.map Prod.fst :=
              mem_scoredScores image location name similarity_threshold output_folder
                saveOk rest (k, m) hm2
            have hne : (k, (location, m)) ≠ (rn, (location, m0)) := by
              intro he
              have hkrn : k = rn := congrArg Prod.fst he
              exact hrn (hkrn ▸ hk)
            rw [List.mem_cons, or_iff_right hne]
            exact ih hndr k m hm2

/-- With no export failures, raising is threshold-independent, and every
record produced under a smaller threshold is produced under a larger one. -/
lemma compareRecords_mono (image : PILImage) (location name : String)
    {th1 th2 : Int} (hth : th1 ≤ th2) (output_folder : String) (saveOk : String → Bool)
    (hsave : output_folder = "" ∨ ∀ p, saveOk p = true) :
    ∀ (refs : List (String × PILImage)) (x : String × (String × Score)),
      x ∈ compareRecords image location name th1 output_folder saveOk refs →
      x ∈ compareRecords image location name th2 output_folder saveOk refs := by
  intro refs
  induction refs with
  | nil => intro x hx; cases hx
  | cons head rest ih =>
    obtain ⟨rn, ri⟩ := head
    intro x hx
    simp only [compareRecords] at hx ⊢
    unfold img_similarity_check at hx ⊢
    cases hd : imageChopsDifference ri image with
    | none => simp only [hd] at hx; cases hx
    | some diff =>
      simp only [hd] at hx ⊢
      have htail : ∀ th : Int,
          (if output_folder ≠ "" then
            if saveOk (pjoin output_folder name) = true then
              compareRecords image location name th output_folder saveOk rest
            else []
          else compareRecords image location name th output_folder saveOk rest) =
            compareRecords image location name th output_folder saveOk rest := by
        intro th
        rcases hsave with ho | hs
        · simp [ho]
        · simp [hs]
      by_cases h1 : npMean diff < (th1 : ℚ)
      · have h2 : npMean diff < (th2 : ℚ) :=
          lt_of_lt_of_le h1 (by exact_mod_cast hth)
        rw [decide_eq_true h1] at hx
        rw [decide_eq_true h2]
        simp only [if_true, htail] at hx ⊢
        rcases List.mem_cons.mp hx with hx1 | hx2
        · exact hx1 ▸ List.mem_cons_self _ _
        · exact List.mem_cons_of_mem _ (ih x hx2)
      · rw [decide_eq_false h1] at hx
        simp only [Bool.false_eq_true, if_false] at hx
        have hx2 := ih x hx
        by_cases h2 : npMean diff < (th2 : ℚ)
        · rw [decide_eq_true h2]
          simp only [if_true, htail]
          exact List.mem_cons_of_mem _ hx2
        · rw [decide_eq_false h2]
          simpa using hx2

/-- Loading seeds every loaded reference's key with an empty match list, in
listing order. -/
lemma loadReferences_res (reference_image_folder_path : String) :
    ∀ files : List RefFile,
      (loadReferences reference_image_folder_path files).2.1 =
        ((loadReferences reference_image_folder_path files).1).map
          fun p => (p.1, ([] : MatchList)) := by
  intro files
  induction files with
  | nil => rfl
  | cons f rest ih =>
    simp only [loadReferences]
    by_cases hf : isRefImageFilename f.filename = true
    · simp only [if_pos hf]
      cases hd : f.decoded with
      | none => rfl
      | some image => simp only [List.map_cons]; rw [ih]
    · simp only [if_neg hf]; exact ih

/-- A key present in the key sequence has a bound value. -/
lemma exists_lookup_of_mem_keys {β : Type} :
    ∀ (m : List (String × β)) (k : String), k ∈ m.map Prod.fst →
      ∃ l, List.lookup k m = some l := by
  intro m
  induction m with
  | nil => intro k h; cases h
  | cons a rest ih =>
    obtain ⟨a1, a2⟩ := a
    intro k h
    rw [lookup_cons_eq_if]
    by_cases hk : k = a1
    · exact ⟨a2, if_pos hk⟩
    · rw [if_neg hk]
      rw [List.map_cons] at h
      rcases List.mem_cons.mp h with h1 | h2
      · exact absurd h1 hk
      · exact ih k h2

/-- With no reference images, scoring an entry changes nothing. -/
lemma is_image_similar_nil_refs (location name : String) (content : DecodeResult)
    (similarity_threshold : Int) (output_folder : String) (saveOk : String → Bool)
    (result : ResultMap) :
    is_image_similar location name content [] similarity_threshold output_folder
      saveOk result = result := by
  by_cases hext : pyLower (splitextExt location) ∈ valid_image_extensions
  · cases content with
    | noObject =>
      exact is_image_similar_not_decoded (fun _ h => DecodeResult.noConfusion h) name []
        similarity_threshold output_folder saveOk result
    | decodeError =>
      exact is_image_similar_not_decoded (fun _ h => DecodeResult.noConfusion h) name []
        similarity_threshold output_folder saveOk result
    | ok image => rw [is_image_similar_ok hext]; rfl
  · exact is_image_similar_not_ext hext name content [] similarity_threshold
      output_folder saveOk result

/-- With no reference images, the traversal changes nothing. -/
lemma traverse_nil_refs (similarity_threshold : Int) (output_folder : String)
    (saveOk : String → Bool) (e : FileEntry) (result : ResultMap) :
    traverse_file_entries [] similarity_threshold output_folder saveOk e result =
      result := by
  rw [traverse_eq_foldl]
  induction leaves e generalizing result with
  | nil => rfl
  | cons le ls ih =>
    rw [List.foldl_cons]
    have hle : scanLeaf [] similarity_threshold output_folder saveOk result le =
        result := by
      cases le with
      | file location name content =>
        exact is_image_similar_nil_refs location name content similarity_threshold
          output_folder saveOk result
      | dir _ _ _ => rfl
    rw [hle]
    exact ih result

/-- Pointwise distance of a list with itself is all zeros. -/
lemma zipWith_dist_self : ∀ l : List Nat, List.zipWith Nat.dist l l = l.map fun _ => 0 := by
  intro l
  induction l with
  | nil => rfl
  | cons a t ih => simp [List.zipWith, ih, Nat.dist_self]

/-- The difference of an image with itself is the all-zero grid. -/
lemma imageChopsDifference_self (img : PILImage) :
    imageChopsDifference img img = some (img.pixels.map fun _ => 0) := by
  unfold imageChopsDifference
  rw [if_pos ⟨rfl, rfl, rfl⟩, zipWith_dist_self]

/-- Mean of an all-zero grid is zero. -/
lemma npMean_map_zero (l : List Nat) : npMean (l.map fun _ => 0) = 0 := by
  unfold npMean
  have hz : ((List.map (fun n : Nat => (n : ℚ)) (l.map fun _ => (0 : Nat))).sum) = 0 := by
    refine List.sum_eq_zero fun x hx => ?_
    rcases List.mem_map.mp hx with ⟨a, ha, rfl⟩
    rcases List.mem_map.mp ha with ⟨b, _, rfl⟩
    simp
  rw [hz, zero_div]

/-- The header of a reference block starts with the letter of `For`. -/
lemma referenceHeader_head (k : String) :
    (referenceHeader k).data.head? = some 'F' := by
  unfold referenceHeader
  rw [String.data_append]
  rfl

/-- A match line starts with a tab. -/
lemma reportLine_head (st : String × Score) :
    (reportLine st).data.head? = some '\t' := by
  unfold reportLine
  rw [String.data_append, String.data_append, String.data_append]
  rfl

lemma notice_ne_referenceHeader (k : String) :
    no_matches_notice ≠ referenceHeader k := by
  intro h
  have hh : no_matches_notice.data.head? = (referenceHeader k).data.head? :=
    congrArg (fun s => s.data.head?) h
  rw [referenceHeader_head] at hh
  exact absurd hh (by decide)

lemma notice_ne_reportLine (st : String × Score) :
    no_matches_notice ≠ reportLine st := by
  intro h
  have hh : no_matches_notice.data.head? = (reportLine st).data.head? :=
    congrArg (fun s => s.data.head?) h
  rw [reportLine_head] at hh
  exact absurd hh (by decide)

/-- Records of one visited entry are monotone in the threshold, absent export
failures. -/
lemma leafRecords_mono (refs : List (String × PILImage)) {th1 th2 : Int}
    (hth : th1 ≤ th2) (output_folder : String) (saveOk : String → Bool)
    (hsave : output_folder = "" ∨ ∀ p, saveOk p = true) (le : FileEntry)
    (x : String × (String × Score)) :
    x ∈ leafRecords refs th1 output_folder saveOk le →
    x ∈ leafRecords refs th2 output_folder saveOk le := by
  intro hx
  cases le with
  | dir _ _ _ => cases hx
  | file location name content =>
    by_cases hext : pyLower (splitextExt location) ∈ valid_image_extensions
    · cases content with
      | noObject =>
        rw [leafRecords_not_decoded (fun _ h => DecodeResult.noConfusion h)] at hx
        cases hx
      | decodeError =>
        rw [leafRecords_not_decoded (fun _ h => DecodeResult.noConfusion h)] at hx
        cases hx
      | ok image =>
        rw [leafRecords_ok hext] at hx ⊢
        exact compareRecords_mono image location name hth output_folder saveOk hsave
          refs x hx
    · rw [leafRecords_not_ext hext] at hx
      cases hx

/-! ### Concrete instances used in counterexamples and witnesses -/

/-- A 1×1 candidate image with the single sample 5. -/
def imgC : PILImage := ⟨1, 1, "L", [5]⟩

/-- A 1×1 reference image with the single sample 0 (distance 5 from `imgC`). -/
def imgA : PILImage := ⟨1, 1, "L", [0]⟩

/-- A 1×1 reference image with the single sample 4 (distance 1 from `imgC`). -/
def imgB : PILImage := ⟨1, 1, "L", [4]⟩

/-- A reference folder listing with the two references above. -/
def cexFiles : List RefFile := [⟨"A.png", some imgA⟩, ⟨"B.png", some imgB⟩]

/-- The loaded reference list for `cexFiles`. -/
def cexRefs : List (String × PILImage) :=
  [("refs/A.png", imgA), ("refs/B.png", imgB)]

/-- A disk image tree with a single candidate leaf. -/
def cexRoot : FileEntry := .dir "/" "" [.file "/c.png" "c.png" (.ok imgC)]

lemma npMean_single (n : Nat) : npMean [n] = (n : ℚ) := by
  unfold npMean
  norm_num

lemma check_CA (th : Int) :
    img_similarity_check imgC imgA th = some (decide ((5 : ℚ) < (th : ℚ)), 5) := by
  unfold img_similarity_check
  rw [show imageChopsDifference imgA imgC = some [5] from by decide]
  show some (decide (npMean [5] < (th : ℚ)), npMean [5]) = _
  rw [npMean_single]
  norm_num

lemma check_CB (th : Int) :
    img_similarity_check imgC imgB th = some (decide ((1 : ℚ) < (th : ℚ)), 1) := by
  unfold img_similarity_check
  rw [show imageChopsDifference imgB imgC = some [1] from by decide]
  show some (decide (npMean [1] < (th : ℚ)), npMean [1]) = _
  rw [npMean_single]
  norm_num

lemma cex_records_3_out :
    compareRecords imgC "/c.png" "c.png" 3 "out" (fun _ => false) cexRefs =
      [("refs/B.png", ("/c.png", 1))] := by
  have h5 : decide ((5 : ℚ) < ((3 : Int) : ℚ)) = false := decide_eq_false (by norm_num)
  have h1 : decide ((1 : ℚ) < ((3 : Int) : ℚ)) = true := decide_eq_true (by norm_num)
  have hout : ¬ ("out" : String) = "" := by decide
  simp [cexRefs, compareRecords, check_CA, check_CB, h5, h1, hout]
  norm_num

lemma cex_records_10_out :
    compareRecords imgC "/c.png" "c.png" 10 "out" (fun _ => false) cexRefs =
      [("refs/A.png", ("/c.png", 5))] := by
  have h5 : decide ((5 : ℚ) < ((10 : Int) : ℚ)) = true := decide_eq_true (by norm_num)
  have hout : ¬ ("out" : String) = "" := by decide
  simp [cexRefs, compareRecords, check_CA, check_CB, h5, hout]
  norm_num

lemma cex_records_3_nil :
    compareRecords imgC "/c.png" "c.png" 3 "" (fun _ => true) cexRefs =
      [("refs/B.png", ("/c.png", 1))] := by
  have h5 : decide ((5 : ℚ) < ((3 : Int) : ℚ)) = false := decide_eq_false (by norm_num)
  have h1 : decide ((1 : ℚ) < ((3 : Int) : ℚ)) = true := decide_eq_true (by norm_num)
  simp [cexRefs, compareRecords, check_CA, check_CB, h5, h1]
  norm_num

lemma cex_records_10_nil :
    compareRecords imgC "/c.png" "c.png" 10 "" (fun _ => true) cexRefs =
      [("refs/A.png", ("/c.png", 5)), ("refs/B.png", ("/c.png", 1))] := by
  have h5 : decide ((5 : ℚ) < ((10 : Int) : ℚ)) = true := decide_eq_true (by norm_num)
  have h1 : decide ((1 : ℚ) < ((10 : Int) : ℚ)) = true := decide_eq_true (by norm_num)
  simp [cexRefs, compareRecords, check_CA, check_CB, h5, h1]
  norm_num

lemma cex_load :
    loadReferences "refs" cexFiles =
      (cexRefs, [("refs/A.png", []), ("refs/B.png", [])], true) := by decide

/-- Lookup of reference B's list after a full run on the one-leaf tree. -/
lemma cex_lookupB (th : Int) (o : String) (sv : String → Bool)
    (recs : List (String × (String × Score)))
    (hrecs : compareRecords imgC "/c.png" "c.png" th o sv cexRefs = recs) :
    List.lookup "refs/B.png"
        (find_similar_images cexRoot "refs" cexFiles th o sv).result =
      some (recsFor "refs/B.png" recs) := by
  simp only [find_similar_images, cex_load]
  show List.lookup "refs/B.png" (traverse_file_entries cexRefs th o sv cexRoot
    [("refs/A.png", []), ("refs/B.png", [])]) = _
  rw [lookup_traverse]
  rw [show leaves cexRoot = [.file "/c.png" "c.png" (.ok imgC)] from rfl]
  rw [show List.lookup "refs/B.png"
      ([("refs/A.png", []), ("refs/B.png", [])] : ResultMap) = some [] from by decide]
  rw [List.map_cons, List.map_nil,
    leafRecords_ok (by decide : pyLower (splitextExt "/c.png") ∈ valid_image_extensions),
    hrecs]
  simp

/-! ### Claim theorems -/

/-- C1: the comparison loop appends exactly its record list to the result
(`appendAll`), and for every reference the loop actually scores (with unique
reference identifiers, as in a Python dict), a match record for it is
appended iff the computed score is strictly below the threshold; in
particular a score exactly equal to the threshold is never recorded. -/
theorem C1_record_iff_strictly_below_threshold (image : PILImage)
    (location name : String) (similarity_threshold : Int) (output_folder : String)
    (saveOk : String → Bool) (refs : List (String × PILImage))
    (hnd : (refs.map Prod.fst).Nodup) :
    (∀ result : ResultMap,
      (compareAll image location name similarity_threshold output_folder saveOk refs
        result).1 =
        appendAll result (compareRecords image location name similarity_threshold
          output_folder saveOk refs))
    ∧ ∀ (k : String) (m : Score),
        (k, m) ∈ scoredScores image location name similarity_threshold output_folder
          saveOk refs →
        (((k, (location, m)) ∈ compareRecords image location name similarity_threshold
            output_folder saveOk refs) ↔ m < (similarity_threshold : ℚ)) ∧
          (m = (similarity_threshold : ℚ) →
            (k, (location, m)) ∉ compareRecords image location name
              similarity_threshold output_folder saveOk refs) := by
  refine ⟨fun result => by rw [compareAll_eq], fun k m hm => ?_⟩
  have hiff := scored_record_iff image location name similarity_threshold
    output_folder saveOk refs hnd k m hm
  refine ⟨hiff, fun heq hmem => ?_⟩
  have hlt := hiff.mp hmem
  rw [heq] at hlt
  exact lt_irrefl _ hlt

/-- C1 witness at a concrete input: the candidate scores 5 against the only
reference, and the record for it is appended iff 5 is below the threshold. -/
theorem C1_witness :
    (("A", ("/c.png", (5 : ℚ))) ∈ compareRecords imgC "/c.png" "c.png" 10 ""
        (fun _ => true) [("A", imgA)]) ↔ (5 : ℚ) < ((10 : Int) : ℚ) :=
  ((C1_record_iff_strictly_below_threshold imgC "/c.png" "c.png" 10 ""
      (fun _ => true) [("A", imgA)] (by decide)).2 "A" 5
    (by rw [show scoredScores imgC "/c.png" "c.png" 10 "" (fun _ => true) [("A", imgA)]
          = [("A", 5)] from by
        simp [scoredScores, check_CA]]
        exact List.mem_singleton.mpr rfl)).1

/-- C2: the recursive traversal is exactly the left fold of per-entry
scoring over the depth-first leaf sequence (children in provider order), so
every leaf is visited and scored exactly once, in discovery order; and each
reference's match list is extended by the per-leaf record contributions
concatenated in exactly that discovery order. -/
theorem C2_traversal_depth_first_exactly_once (refs : List (String × PILImage))
    (similarity_threshold : Int) (output_folder : String) (saveOk : String → Bool)
    (e : FileEntry) (result : ResultMap) :
    traverse_file_entries refs similarity_threshold output_folder saveOk e result =
      (leaves e).foldl (scanLeaf refs similarity_threshold output_folder saveOk) result
    ∧ ∀ k : String,
        List.lookup k (traverse_file_entries refs similarity_threshold output_folder
          saveOk e result) =
          (List.lookup k result).map fun l =>
            l ++ ((leaves e).map fun le =>
              recsFor k (leafRecords refs similarity_threshold output_folder saveOk
                le)).flatten :=
  ⟨traverse_eq_foldl refs similarity_threshold output_folder saveOk e result,
   fun k => lookup_traverse refs similarity_threshold output_folder saveOk e result k⟩

/-- C4: comparing any image with an identical copy of itself succeeds (equal
dimensions and mode), and the computed mean absolute per-pixel difference is
exactly 0. -/
theorem C4_self_comparison_score_zero (img : PILImage) (similarity_threshold : Int) :
    img_similarity_check img img similarity_threshold =
      some (decide ((0 : ℚ) < (similarity_threshold : ℚ)), 0) := by
  unfold img_similarity_check
  rw [imageChopsDifference_self]
  show some (decide (npMean (img.pixels.map fun _ => 0) < (similarity_threshold : ℚ)),
    npMean (img.pixels.map fun _ => 0)) = _
  rw [npMean_map_zero]

/-- C6: a candidate whose bytes fail to decode is skipped softly: its entry
leaves the result untouched, and the traversal of a directory continues with
the remaining entries exactly as if the failing entry contributed nothing. -/
theorem C6_decode_failure_soft_skip (location name : String)
    (refs : List (String × PILImage)) (similarity_threshold : Int)
    (output_folder : String) (saveOk : String → Bool) (result : ResultMap)
    (l0 n0 : String) (rest : List FileEntry) :
    is_image_similar location name .decodeError refs similarity_threshold
        output_folder saveOk result = result
    ∧ traverse_file_entries refs similarity_threshold output_folder saveOk
        (.dir l0 n0 (.file location name .decodeError :: rest)) result =
      traverseList refs similarity_threshold output_folder saveOk rest result := by
  have h1 : is_image_similar location name .decodeError refs similarity_threshold
      output_folder saveOk result = result :=
    is_image_similar_not_decoded (fun _ h => DecodeResult.noConfusion h) name refs
      similarity_threshold output_folder saveOk result
  refine ⟨h1, ?_⟩
  simp only [traverse_file_entries, traverseList]
  rw [h1]

/-- C3 counterexample: with an empty reference-folder listing (zero valid
reference images) the run still traverses the disk image's file tree —
line 84 is reached — contradicting the claimed fatal abort with no
traversal (the process also ends normally, with exit code 0). -/
theorem C3_counterexample :
    (find_similar_images (.dir "/" "" [.file "/a.jpg" "a.jpg" (.ok imgA)]) "refs" []
      10 "" (fun _ => true)).traversed = true := rfl

/-- C3 amended: if the reference folder yields zero valid reference images
(and listing itself succeeds), the run is not aborted: the traversal is
still performed, over an empty reference set, and the final result mapping
is empty, so no matches are recorded and the process exits normally. -/
theorem C3_zero_references_still_traverses (root : FileEntry) (folder : String)
    (files : List RefFile) (similarity_threshold : Int) (output_folder : String)
    (saveOk : String → Bool)
    (h1 : (loadReferences folder files).1 = [])
    (h2 : (loadReferences folder files).2.2 = true) :
    find_similar_images root folder files similarity_threshold output_folder saveOk =
      { result := [], traversed := true } := by
  have hres : (loadReferences folder files).2.1 = [] := by
    rw [loadReferences_res, h1]
    rfl
  simp only [find_similar_images, h1, hres, h2, if_true]
  rw [traverse_nil_refs]

/-- C3 witness: a listing with only a non-image file loads zero references,
and the run still traverses, producing the empty result. -/
theorem C3_witness :
    find_similar_images (.dir "/" "" [.file "/a.jpg" "a.jpg" (.ok imgA)]) "refs"
        [⟨"notes.txt", none⟩] 10 "" (fun _ => true) =
      { result := [], traversed := true } :=
  C3_zero_references_still_traverses _ "refs" _ 10 "" _ (by decide) (by decide)

/-- C5 counterexample: same disk image, same reference set, same output
configuration (an export folder whose saves fail); thresholds 3 < 10, yet
the match of candidate `/c.png` against reference B (score 1) is recorded at
threshold 3 and NOT recorded at threshold 10 — at the larger threshold the
candidate first matches reference A, the export save raises, and reference B
is never scored. -/
theorem C5_counterexample :
    (0 : Int) ≤ 3 ∧ (3 : Int) < 10 ∧
    ("/c.png", (1 : ℚ)) ∈ (List.lookup "refs/B.png"
      (find_similar_images cexRoot "refs" cexFiles 3 "out"
        (fun _ => false)).result).getD []
    ∧ ("/c.png", (1 : ℚ)) ∉ (List.lookup "refs/B.png"
      (find_similar_images cexRoot "refs" cexFiles 10 "out"
        (fun _ => false)).result).getD [] := by
  have hAB : ¬ ("refs/A.png" : String) = "refs/B.png" := by decide
  refine ⟨by decide, by decide, ?_, ?_⟩
  · rw [cex_lookupB 3 "out" (fun _ => false) _ cex_records_3_out]
    simp [recsFor]
  · rw [cex_lookupB 10 "out" (fun _ => false) _ cex_records_10_out]
    simp [recsFor, hAB]

/-- C5 amended: threshold monotonicity holds provided no export save failure
can interrupt the per-candidate reference loop — in particular whenever no
output folder is configured, or every save succeeds: every match recorded
under the smaller threshold is also recorded under the larger one. -/
theorem C5_monotone_without_export_failure (root : FileEntry) (folder : String)
    (files : List RefFile) (th1 th2 : Int) (output_folder : String)
    (saveOk : String → Bool) (k : String) (v : String × Score) (l1 l2 : MatchList)
    (hth : th1 < th2)
    (hsave : output_folder = "" ∨ ∀ p, saveOk p = true)
    (h1 : List.lookup k (find_similar_images root folder files th1 output_folder
      saveOk).result = some l1)
    (h2 : List.lookup k (find_similar_images root folder files th2 output_folder
      saveOk).result = some l2)
    (hv : v ∈ l1) : v ∈ l2 := by
  by_cases hok : (loadReferences folder files).2.2 = true
  · simp only [find_similar_images, hok, if_true] at h1 h2
    rw [lookup_traverse] at h1 h2
    cases hl0 : List.lookup k (loadReferences folder files).2.1 with
    | none => rw [hl0] at h1; cases h1
    | some l0 =>
      rw [hl0] at h1 h2
      injection h1 with h1
      injection h2 with h2
      subst h1 h2
      rcases List.mem_append.mp hv with hv0 | hvJ
      · exact List.mem_append_left _ hv0
      · refine List.mem_append_right _ ?_
        rcases List.mem_flatten.mp hvJ with ⟨blk, hblk, hvblk⟩
        rcases List.mem_map.mp hblk with ⟨le, hle, rfl⟩
        refine List.mem_flatten.mpr
          ⟨recsFor k (leafRecords (loadReferences folder files).1 th2 output_folder
            saveOk le), List.mem_map_of_mem _ hle, ?_⟩
        rcases List.mem_filterMap.mp hvblk with ⟨kv, hkv, hkveq⟩
        exact List.mem_filterMap.mpr
          ⟨kv, leafRecords_mono (loadReferences folder files).1 (le_of_lt hth)
            output_folder saveOk hsave le kv hkv, hkveq⟩
  · simp only [find_similar_images, if_neg hok] at h1 h2
    rw [h1] at h2
    injection h2 with h2
    subst h2
    exact hv

/-- C5 witness: with no output folder, the same scenario is monotone — the
score-1 match for reference B at threshold 3 is also present at threshold
10. -/
theorem C5_witness : ("/c.png", (1 : ℚ)) ∈ ([("/c.png", (1 : ℚ))] : MatchList) := by
  have hAB : ¬ ("refs/A.png" : String) = "refs/B.png" := by decide
  exact C5_monotone_without_export_failure cexRoot "refs" cexFiles 3 10 ""
    (fun _ => true) "refs/B.png" ("/c.png", 1) [("/c.png", 1)] [("/c.png", 1)]
    (by decide) (Or.inl rfl)
    (by rw [cex_lookupB 3 "" (fun _ => true) _ cex_records_3_nil]; simp [recsFor])
    (by rw [cex_lookupB 10 "" (fun _ => true) _ cex_records_10_nil]
        simp [recsFor, hAB])
    (by simp)

/-- C7 counterexample: a run that loads one reference image and finds no
match for it prints "Final Report: " and NOT the no-matches notice — the
notice is printed only when the result mapping is empty (zero references
loaded), contradicting the claim that it appears whenever no reference has
a match. -/
theorem C7_counterexample :
    (find_similar_images (.dir "/" "" []) "refs" [⟨"r.png", some imgA⟩] 10 ""
        (fun _ => true)).result = [("refs/r.png", [])]
    ∧ no_matches_notice ∉ reportLines
        (find_similar_images (.dir "/" "" []) "refs" [⟨"r.png", some imgA⟩] 10 ""
          (fun _ => true)).result := by
  have h : (find_similar_images (.dir "/" "" []) "refs" [⟨"r.png", some imgA⟩] 10 ""
      (fun _ => true)).result = [("refs/r.png", [])] := by decide
  refine ⟨h, ?_⟩
  rw [h]
  decide

/-- C7 amended: in the final report, every reference with at least one match
is printed with its header followed by one line per match; the "no matches"
notice, however, is printed iff the result mapping itself is empty (i.e.
zero references were loaded), not when references exist with no matches. -/
theorem C7_report_headers_and_notice (result : ResultMap) :
    (no_matches_notice ∈ reportLines result ↔ result = [])
    ∧ ∀ (k : String) (l : MatchList), (k, l) ∈ result → l ≠ [] →
        referenceHeader k ∈ reportLines result ∧
          ∀ st ∈ l, reportLine st ∈ reportLines result := by
  constructor
  · constructor
    · intro hmem
      by_contra hne
      have hlen : result.length ≠ 0 := by
        simpa [List.length_eq_zero] using hne
      unfold reportLines at hmem
      rw [if_pos hlen] at hmem
      rcases List.mem_append.mp hmem with hpre | hblocks
      · have hfr : no_matches_notice = "Final Report: " := by simpa using hpre
        exact absurd hfr (by decide)
      · rcases List.mem_flatten.mp hblocks with ⟨blk, hblk, hinblk⟩
        rcases List.mem_map.mp hblk with ⟨kv, _, rfl⟩
        by_cases hkvlen : kv.2.length ≠ 0
        · rw [if_pos hkvlen] at hinblk
          rcases List.mem_cons.mp hinblk with hhd | htl
          · exact absurd hhd (notice_ne_referenceHeader kv.1)
          · rcases List.mem_map.mp htl with ⟨st, _, hst⟩
            exact absurd hst.symm (notice_ne_reportLine st)
        · rw [if_neg hkvlen] at hinblk
          cases hinblk
    · rintro rfl
      show no_matches_notice ∈ reportLines []
      decide
  · intro k l hkl hlne
    have hlen : result.length ≠ 0 := by
      intro h0
      rw [List.length_eq_zero] at h0
      subst h0
      cases hkl
    have hl' : l.length ≠ 0 := by
      simpa [List.length_eq_zero] using hlne
    have hblk : (referenceHeader k :: l.map reportLine) ∈
        result.map (fun kv =>
          if kv.2.length ≠ 0 then referenceHeader kv.1 :: kv.2.map reportLine
          else []) := by
      have hmm := List.mem_map_of_mem (fun kv : String × MatchList =>
        if kv.2.length ≠ 0 then referenceHeader kv.1 :: kv.2.map reportLine
        else []) hkl
      simpa [if_pos hl', hlne] using hmm
    constructor
    · unfold reportLines
      rw [if_pos hlen]
      exact List.mem_append_right _
        (List.mem_flatten.mpr ⟨_, hblk, List.mem_cons_self _ _⟩)
    · intro st hst
      unfold reportLines
      rw [if_pos hlen]
      exact List.mem_append_right _
        (List.mem_flatten.mpr
          ⟨_, hblk, List.mem_cons_of_mem _ (List.mem_map_of_mem _ hst)⟩)

/-- C7 witness: a reference with one match has its header and its match line
in the report. -/
theorem C7_witness :
    referenceHeader "r" ∈ reportLines [("r", [("p", (1 : ℚ))])] ∧
      ∀ st ∈ [("p", (1 : ℚ))], reportLine st ∈ reportLines [("r", [("p", (1 : ℚ))])] :=
  (C7_report_headers_and_notice [("r", [("p", 1)])]).2 "r" [("p", 1)]
    (List.mem_singleton.mpr rfl) (by simp)

/-- C8: loading seeds the result with exactly one key per loaded reference,
each mapped to the empty list; the final result's keys are exactly the
loaded references' identifiers (traversal never adds or removes keys), and
every loaded reference — with or without matches — has a bound list at the
end of the scan. -/
theorem C8_result_keys_are_loaded_references (root : FileEntry) (folder : String)
    (files : List RefFile) (similarity_threshold : Int) (output_folder : String)
    (saveOk : String → Bool) :
    (loadReferences folder files).2.1 =
      ((loadReferences folder files).1).map (fun p => (p.1, ([] : MatchList)))
    ∧ (find_similar_images root folder files similarity_threshold output_folder
        saveOk).result.map Prod.fst =
      ((loadReferences folder files).1).map Prod.fst
    ∧ ∀ k, k ∈ ((loadReferences folder files).1).map Prod.fst →
        ∃ l, List.lookup k (find_similar_images root folder files
          similarity_threshold output_folder saveOk).result = some l := by
  have hres := loadReferences_res folder files
  have hkeys0 : (loadReferences folder files).2.1.map Prod.fst =
      ((loadReferences folder files).1).map Prod.fst := by
    rw [hres, List.map_map]
    rfl
  have hkeys : (find_similar_images root folder files similarity_threshold
      output_folder saveOk).result.map Prod.fst =
      ((loadReferences folder files).1).map Prod.fst := by
    by_cases hok : (loadReferences folder files).2.2 = true
    · simp only [find_similar_images, hok, if_true]
      rw [map_fst_traverse, hkeys0]
    · simp only [find_similar_images, if_neg hok]
      exact hkeys0
  refine ⟨hres, hkeys, fun k hk => ?_⟩
  exact exists_lookup_of_mem_keys _ k (by rw [hkeys]; exact hk)

/-- C8 witness: reference A is a key of the final result of a concrete run
even though it records no match there. -/
theorem C8_witness :
    ∃ l, List.lookup "refs/A.png"
        (find_similar_images cexRoot "refs" cexFiles 10 "" (fun _ => true)).result =
      some l :=
  (C8_result_keys_are_loaded_references cexRoot "refs" cexFiles 10 ""
    (fun _ => true)).2.2 "refs/A.png" (by decide)

/-- C9: when the candidate's decoded image and a reference have differing
dimensions, the comparison raises inside the per-candidate handler instead of
crashing: no match record is ever appended for that pair (the reference's
list is untouched at that entry when it appears only at the mismatching
position), and the traversal continues with the remaining entries. -/
theorem C9_dimension_mismatch_soft (image : PILImage) (location name : String)
    (similarity_threshold : Int) (output_folder : String) (saveOk : String → Bool)
    (refs1 refs2 : List (String × PILImage)) (k : String) (ref : PILImage)
    (result : ResultMap) (l0 n0 : String) (rest : List FileEntry)
    (hdim : image.width ≠ ref.width ∨ image.height ≠ ref.height)
    (hk : k ∉ (refs1 ++ refs2).map Prod.fst) :
    List.lookup k (is_image_similar location name (.ok image)
        (refs1 ++ (k, ref) :: refs2) similarity_threshold output_folder saveOk result)
      = List.lookup k result
    ∧ traverse_file_entries (refs1 ++ (k, ref) :: refs2) similarity_threshold
        output_folder saveOk
        (.dir l0 n0 (.file location name (.ok image) :: rest)) result
      = traverseList (refs1 ++ (k, ref) :: refs2) similarity_threshold output_folder
          saveOk rest
          (is_image_similar location name (.ok image) (refs1 ++ (k, ref) :: refs2)
            similarity_threshold output_folder saveOk result) := by
  have hcond : ¬ (ref.width = image.width ∧ ref.height = image.height ∧
      ref.mode = image.mode) := by
    rintro ⟨h1, h2, _⟩
    rcases hdim with hw | hh
    · exact hw h1.symm
    · exact hh h2.symm
  have hchk : img_similarity_check image ref similarity_threshold = none := by
    unfold img_similarity_check imageChopsDifference
    rw [if_neg hcond]
  have hrecnil : recsFor k (compareRecords image location name similarity_threshold
      output_folder saveOk (refs1 ++ (k, ref) :: refs2)) = [] := by
    unfold recsFor
    refine List.filterMap_eq_nil_iff.mpr fun kv hkv => ?_
    have hne : ¬ kv.1 = k := by
      intro hkeq
      by_cases hexc : compareExc image location name similarity_threshold
          output_folder saveOk refs1 = true
      · have hsplit := compareRecords_append_of_exc image location name
          similarity_threshold output_folder saveOk refs1 ((k, ref) :: refs2) hexc
        rw [hsplit.1] at hkv
        have hmem := (mem_compareRecords image location name similarity_threshold
          output_folder saveOk refs1 kv hkv).1
        refine hk ?_
        rw [List.map_append]
        exact List.mem_append_left _ (hkeq ▸ hmem)
      · have hexc' : compareExc image location name similarity_threshold
            output_folder saveOk refs1 = false := by simpa using hexc
        have hsplit := compareRecords_append_of_not_exc image location name
          similarity_threshold output_folder saveOk refs1 ((k, ref) :: refs2) hexc'
        rw [hsplit.1] at hkv
        rcases List.mem_append.mp hkv with h1 | h2
        · have hmem := (mem_compareRecords image location name similarity_threshold
            output_folder saveOk refs1 kv h1).1
          refine hk ?_
          rw [List.map_append]
          exact List.mem_append_left _ (hkeq ▸ hmem)
        · rw [show compareRecords image location name similarity_threshold
              output_folder saveOk ((k, ref) :: refs2) = [] from by
            simp [compareRecords, hchk]] at h2
          cases h2
    exact if_neg hne
  constructor
  · by_cases hext : pyLower (splitextExt location) ∈ valid_image_extensions
    · rw [lookup_is_image_similar, leafRecords_ok hext, hrecnil,
        option_map_append_nil]
    · rw [is_image_similar_not_ext hext]
  · simp only [traverse_file_entries, traverseList]

/-- C9 witness: a 1×1 candidate against a 2×1 reference leaves that
reference's (only) list untouched. -/
theorem C9_witness :
    List.lookup "R" (is_image_similar "/c.png" "c.png" (.ok imgC)
        ([] ++ ("R", ⟨2, 1, "L", [0, 0]⟩) :: []) 10 "" (fun _ => true) [("R", [])]) =
      List.lookup "R" ([("R", [])] : ResultMap) :=
  (C9_dimension_mismatch_soft imgC "/c.png" "c.png" 10 "" (fun _ => true) [] []
    "R" ⟨2, 1, "L", [0, 0]⟩ [("R", [])] "/" "" [] (Or.inl (by decide)) (by decide)).1

/-- C10: if the comparison loop raises at the k-th reference (a size/mode
mismatch while scoring, or a failing export save of a match), the candidate
is never scored against any reference after the k-th — records and the
raised flag are those of the run cut after the k-th reference — while
records appended before the failure point are kept, and the traversal
continues with the remaining entries. -/
theorem C10_exception_truncates_reference_loop (image : PILImage)
    (location name : String) (similarity_threshold : Int) (output_folder : String)
    (saveOk : String → Bool) (pre post : List (String × PILImage)) (k : String)
    (ref : PILImage) (result : ResultMap) (l0 n0 : String) (rest : List FileEntry)
    (hext : pyLower (splitextExt location) ∈ valid_image_extensions)
    (hpre : compareExc image location name similarity_threshold output_folder saveOk
      pre = false)
    (hraise : img_similarity_check image ref similarity_threshold = none ∨
      ∃ m : Score, img_similarity_check image ref similarity_threshold =
          some (true, m) ∧ output_folder ≠ "" ∧
        saveOk (pjoin output_folder name) = false) :
    compareRecords image location name similarity_threshold output_folder saveOk
        (pre ++ (k, ref) :: post) =
      compareRecords image location name similarity_threshold output_folder saveOk
        (pre ++ [(k, ref)])
    ∧ compareExc image location name similarity_threshold output_folder saveOk
        (pre ++ (k, ref) :: post) = true
    ∧ is_image_similar location name (.ok image) (pre ++ (k, ref) :: post)
        similarity_threshold output_folder saveOk result =
      appendAll result (compareRecords image location name similarity_threshold
        output_folder saveOk (pre ++ [(k, ref)]))
    ∧ traverse_file_entries (pre ++ (k, ref) :: post) similarity_threshold
        output_folder saveOk
        (.dir l0 n0 (.file location name (.ok image) :: rest)) result =
      traverseList (pre ++ (k, ref) :: post) similarity_threshold output_folder saveOk
        rest
        (appendAll result (compareRecords image location name similarity_threshold
          output_folder saveOk (pre ++ [(k, ref)]))) := by
  have hsingle : compareRecords image location name similarity_threshold output_folder
      saveOk ((k, ref) :: post) =
        compareRecords image location name similarity_threshold output_folder saveOk
          [(k, ref)]
      ∧ compareExc image location name similarity_threshold output_folder saveOk
          ((k, ref) :: post) = true := by
    rcases hraise with hnone | ⟨m, hc, ho, hs⟩
    · constructor <;> simp [compareRecords, compareExc, hnone]
    · have hsne : ¬ saveOk (pjoin output_folder name) = true := by simp [hs]
      constructor <;>
        simp [compareRecords, compareExc, hc, if_pos ho, if_neg hsne]
  have hA : compareRecords image location name similarity_threshold output_folder
      saveOk (pre ++ (k, ref) :: post) =
        compareRecords image location name similarity_threshold output_folder saveOk
          (pre ++ [(k, ref)]) := by
    have h1 := compareRecords_append_of_not_exc image location name
      similarity_threshold output_folder saveOk pre ((k, ref) :: post) hpre
    have h2 := compareRecords_append_of_not_exc image location name
      similarity_threshold output_folder saveOk pre [(k, ref)] hpre
    rw [h1.1, h2.1, hsingle.1]
  have hB : compareExc image location name similarity_threshold output_folder saveOk
      (pre ++ (k, ref) :: post) = true := by
    have h1 := compareRecords_append_of_not_exc image location name
      similarity_threshold output_folder saveOk pre ((k, ref) :: post) hpre
    rw [h1.2, hsingle.2]
  have hC : is_image_similar location name (.ok image) (pre ++ (k, ref) :: post)
      similarity_threshold output_folder saveOk result =
        appendAll result (compareRecords image location name similarity_threshold
          output_folder saveOk (pre ++ [(k, ref)])) := by
    rw [is_image_similar_ok hext, compareAll_eq, hA]
  refine ⟨hA, hB, hC, ?_⟩
  simp only [traverse_file_entries, traverseList]
  rw [hC]

/-- C10 witness: the loop raises at the first (mismatching) reference, and a
reference listed after it is never scored: the records equal those of the
run cut after the raising reference. -/
theorem C10_witness :
    compareRecords imgC "/c.png" "c.png" 10 "" (fun _ => true)
        ([] ++ ("R", ⟨2, 1, "L", [0, 0]⟩) :: [("S", imgA)]) =
      compareRecords imgC "/c.png" "c.png" 10 "" (fun _ => true)
        ([] ++ [("R", ⟨2, 1, "L", [0, 0]⟩)]) :=
  (C10_exception_truncates_reference_loop imgC "/c.png" "c.png" 10 "" (fun _ => true)
    [] [("S", imgA)] "R" ⟨2, 1, "L", [0, 0]⟩ [] "/" "" [] (by decide) rfl
    (Or.inl (by decide))).1

end ForensicTool
